import Mathlib

/-!
Verification of the MemeSignal core (src/app.py) against its specification.

The embedding models the decision logic of `app.py`:
* `get_meme_coin_data` (app.py lines 45-64): parse the upstream token-lookup
  response, sort the candidate pairs by volume, build the quote dictionary;
* `get_historical_data` (app.py lines 66-74): pair-history fetch;
* the alert block of `main` (app.py lines 129-177): session-state alert,
  condition check, sound/notification, pop on trigger.

Python floats are modelled by `PyFloat` (a rational, an infinity, or NaN);
a Python `float(s)` call on an upstream string field is modelled by its
outcome `ParsedNum` (either a value or a raised `ValueError`).  Machine
floating point is not modelled bit for bit: every number that occurs in the
claims is exactly representable, and comparisons on such values agree with
the rational ones (NaN compares false both ways, as in Python).
-/

namespace MemeSignal

/-- Outcome of a Python float expression: a finite value, an infinity or NaN. -/
inductive PyFloat where
  | num (q : ℚ)
  | inf
  | ninf
  | nan
deriving DecidableEq

/-- Python `<` on floats: NaN compares false against everything,
-inf below every number, inf above every number. -/
def pyLt : PyFloat → PyFloat → Bool
  | .nan, _ => false
  | _, .nan => false
  | .ninf, .ninf => false
  | .ninf, _ => true
  | _, .ninf => false
  | .inf, _ => false
  | .num _, .inf => true
  | .num a, .num b => decide (a < b)

/-- Python `>` on floats. -/
def pyGt (a b : PyFloat) : Bool := pyLt b a

/-- Outcome of Python `float(x)` on an upstream field: either the parsed
value, or a raised `ValueError` (the string does not parse). -/
inductive ParsedNum where
  | err
  | val (v : PyFloat)
deriving DecidableEq

/-- One upstream candidate trading pair, as `get_meme_coin_data` reads it.
String fields that are only parsed with `float(...)` are modelled by their
parse outcome; a missing field is `none`.  `baseToken.symbol` /
`quoteToken.symbol` are modelled as plain strings (always present, per the
upstream schema), and `priceChange.h24` is flattened into the single field
`h24` (a missing `priceChange` object gives a missing `h24`, and both fall
back to the same `0` default in the code). -/
structure Pair where
  priceUsd : Option ParsedNum
  volumeUsd : Option ParsedNum
  chainId : String
  pairAddress : String
  baseSymbol : String
  quoteSymbol : String
  h24 : Option ParsedNum
deriving DecidableEq

/-- The dictionary returned by `get_meme_coin_data` (app.py lines 55-61). -/
structure Quote where
  price : PyFloat
  pair_address : String
  base_token : String
  quote_token : String
  change_24h : PyFloat
deriving DecidableEq

/-- What the token-lookup request produces inside the `try` block:
`err` is any raised exception up to and including `response.json()`
(transport error, timeout, malformed body); `ok none` is a JSON object
without a `pairs` key; `ok (some ps)` carries the candidate list. -/
inductive Response where
  | err
  | ok (pairs : Option (List Pair))
deriving DecidableEq

/-- The sort key `float(x.get('volumeUsd', 0))` (app.py line 53): a missing
`volumeUsd` falls back to `0`.  The `err` branch also yields `0` to keep the
function total; in `get_meme_coin_data` that branch is never reached, because
an unparseable `volumeUsd` raises inside `sorted` and aborts the whole fetch
(see `vol_raises` and the guard in `select_main_pair`). -/
def vol_key (p : Pair) : PyFloat :=
  match p.volumeUsd with
  | none => .num 0
  | some .err => .num 0
  | some (.val v) => v

/-- Whether evaluating the sort key on `p` raises `ValueError`
(`volumeUsd` present but unparseable). -/
def vol_raises (p : Pair) : Bool :=
  match p.volumeUsd with
  | some .err => true
  | _ => false

/-- Insert `x` into `l` keeping `l`'s order, placing `x` before the first
element whose key is strictly below `x`'s: inserting every element of a list
left to right through this yields exactly a stable descending sort, which is
what Python's `sorted(..., key=..., reverse=True)` performs (Timsort is
stable, and `reverse=True` keeps equal elements in list order). -/
def insert_desc (key : Pair → PyFloat) (x : Pair) : List Pair → List Pair
  | [] => [x]
  | y :: ys => if pyLt (key y) (key x) then x :: y :: ys else y :: insert_desc key x ys

/-- Stable descending sort by `key`: the model of
`sorted(data['pairs'], key=lambda x: float(x.get('volumeUsd', 0)), reverse=True)`
(app.py lines 52-54). -/
def sorted_desc (key : Pair → PyFloat) (l : List Pair) : List Pair :=
  l.foldl (fun acc x => insert_desc key x acc) []

/-- `main_pair`, the `[0]` of the sorted candidate list (app.py lines 52-54).
`sorted` evaluates the key on every element before comparing, so one
unparseable `volumeUsd` anywhere in the list raises and the fetch returns
`None` — modelled by the `any vol_raises` guard. -/
def select_main_pair (ps : List Pair) : Option Pair :=
  if ps.any vol_raises then none
  else (sorted_desc vol_key ps).head?

/-- The dictionary literal of app.py lines 55-61 built from `main_pair`:
`float(main_pair['priceUsd'])` raises `KeyError` on a missing price and
`ValueError` on an unparseable one (fetch returns `None` either way), and
`float(main_pair.get('priceChange', {}).get('h24', 0))` defaults a missing
24h change to `0` but raises on a present-but-unparseable one. -/
def build_quote (p : Pair) : Option Quote :=
  match p.priceUsd with
  | none => none
  | some .err => none
  | some (.val v) =>
    match p.h24 with
    | none => some ⟨v, p.pairAddress, p.baseSymbol, p.quoteSymbol, .num 0⟩
    | some .err => none
    | some (.val c) => some ⟨v, p.pairAddress, p.baseSymbol, p.quoteSymbol, c⟩

/-- `get_meme_coin_data` (app.py lines 45-64) as a function of what the
upstream request produced.  Any raised exception is caught by the bare
`except` and the function returns `None`; a response without a non-empty
`pairs` list falls through to `return None` as well. -/
def get_meme_coin_data : Response → Option Quote
  | .err => none
  | .ok none => none
  | .ok (some ps) =>
    if ps.isEmpty then none
    else (select_main_pair ps).bind build_quote

/-- One `{timestamp (epoch ms), priceUsd (decimal string)}` record of the
pair-history endpoint.  `get_historical_data` never parses `priceUsd`
(the chart code does, later), so it stays a raw string here. -/
structure HistPoint where
  timestamp : Nat
  priceUsd : String
deriving DecidableEq

/-- What the pair-history request produces inside the `try` block: `err` is
any raised exception, `ok none` a body without a `pair.priceHistory` list
(the chained `.get` defaults apply), `ok (some l)` the history list. -/
inductive HistResponse where
  | err
  | ok (priceHistory : Option (List HistPoint))
deriving DecidableEq

/-- `get_historical_data` (app.py lines 66-74):
`data.get('pair', {}).get('priceHistory', [])[:200]` — the first (at most)
200 elements of the upstream list, in upstream order; `[]` on a missing list
or on any exception. -/
def get_historical_data : HistResponse → List HistPoint
  | .err => []
  | .ok none => []
  | .ok (some l) => l.take 200

/-- The radio choice of app.py line 141: `"Price Goes Above"` or
`"Price Goes Below"`. -/
inductive AlertCond where
  | above
  | below
deriving DecidableEq

/-- `st.session_state['alert']` (app.py lines 146-151): the single saved
alert — one threshold price, one direction, the token label, and the
`active` flag (written but never read back). -/
structure Alert where
  price : ℚ
  condition : AlertCond
  token : String
  active : Bool
deriving DecidableEq

/-- `condition_met` (app.py lines 168-171):
`(condition == "Price Goes Above" and current_price > alert['price']) or
(condition == "Price Goes Below" and current_price < alert['price'])`.
The two string comparisons cover both values of the radio choice, so the
disjunction reduces to a case split on the direction.  NaN compares false
both ways, as in Python. -/
def condition_met (a : Alert) (current_price : PyFloat) : Bool :=
  match a.condition with
  | .above => pyGt current_price (.num a.price)
  | .below => pyLt current_price (.num a.price)

/-- One pass through the monitoring block (app.py lines 155-177) for a
successfully fetched price: no saved alert means nothing happens; a saved
alert whose condition holds plays the alert sound (the one notification) and
is popped from the session state; otherwise the alert stays saved.  Returns
the session state after the pass and whether a notification was emitted. -/
def observe_step (st : Option Alert) (price : PyFloat) : Option Alert × Bool :=
  match st with
  | none => (st, false)
  | some a => if condition_met a price then (none, true) else (some a, false)

/-- The monitoring block run over a sequence of fetched prices (one script
rerun per price, app.py line 177 re-running the script after a trigger).
Returns the final session state and the number of notifications emitted. -/
def observe_run (st : Option Alert) : List PyFloat → Option Alert × Nat
  | [] => (st, 0)
  | p :: rest =>
    let r := observe_step st p
    let rr := observe_run r.1 rest
    (rr.1, (if r.2 then 1 else 0) + rr.2)

/-- One poll tick (app.py lines 99-177): fetch, then — only when the fetch
returned data (`if coin_data:` line 100) — run the monitoring block.  A
failed fetch leaves the session state untouched and emits nothing. -/
def poll_tick (st : Option Alert) (r : Response) : Option Alert × Bool :=
  match get_meme_coin_data r with
  | none => (st, false)
  | some q => observe_step st q.price

/-- The token-lookup URL of app.py line 47. -/
def token_url (token_address : String) : String :=
  "https://api.dexscreener.com/latest/dex/tokens/" ++ token_address

/-- `get_meme_coin_data` as the code performs it end to end (app.py lines
45-64): the request for the address's URL is issued unconditionally — there
is no address check before it — and the result is parsed from whatever the
upstream returned.  The second component is the list of request URLs the
call issued. -/
def fetch_with_requests (token_address : String) (upstream : String → Response) :
    Option Quote × List String :=
  (get_meme_coin_data (upstream (token_url token_address)), [token_url token_address])

/-- The token-lookup requests one script run issues (app.py lines 82-99):
the Verify button (line 92-94, reachable only with a non-empty address)
calls `get_meme_coin_data` once, and the display path (lines 98-99) calls it
again whenever the address is non-empty.  Each call issues its own request —
`app.py` has no cache layer at all. -/
def quote_requests (token_address : String) (verify_clicked : Bool) : List String :=
  (if verify_clicked ∧ token_address ≠ "" then [token_url token_address] else []) ++
    (if token_address ≠ "" then [token_url token_address] else [])

/-- The token-lookup requests of a whole session: one script run per entry
(the entry records whether Verify was clicked on that run). -/
def session_requests (token_address : String) (runs : List Bool) : List String :=
  (runs.map (quote_requests token_address)).flatten

/-- The chain tag of the spec's data model (§3). -/
inductive Chain where
  | ethereum
  | solana
  | invalid
deriving DecidableEq

/-- Modelled from the spec: the Base58 alphabet used by AddressClassifier
(§4.1), which is absent from src/app.py. -/
def base58_alphabet : List Char :=
  "123456789ABCDEFGHJKLMNPQRSTUVWXYZabcdefghijkmnopqrstuvwxyz".toList

/-- Modelled from the spec: the value of one Base58 digit, or `none` for a
character outside the alphabet (malformed Base58 must map to `invalid`). -/
def base58_digit (c : Char) : Option Nat :=
  if c ∈ base58_alphabet then some (base58_alphabet.indexOf c) else none

/-- Number of leading `'1'` characters (each stands for one leading zero
byte in the decoded Base58 payload). -/
def leading_ones : List Char → Nat
  | [] => 0
  | c :: cs => if c = '1' then leading_ones cs + 1 else 0

/-- Bytes needed for a natural number written big-endian (0 for 0). -/
def nat_byte_len (n : Nat) : Nat := if n = 0 then 0 else Nat.log 256 n + 1

/-- Modelled from the spec: the byte length of the Base58 decoding of `s`,
or `none` when `s` is not valid Base58 (§4.1). -/
def base58_decoded_len (s : String) : Option Nat :=
  match s.toList.mapM base58_digit with
  | none => none
  | some ds =>
    some (leading_ones s.toList + nat_byte_len (ds.foldl (fun a d => a * 58 + d) 0))

/-- Modelled from the spec: AddressClassifier `classify` (§4.1), which is
absent from src/app.py.  A string starting with `0x` of length 42 is
`ethereum`; otherwise a valid Base58 string decoding to exactly 32 bytes
(the strict canonical rule of §9) is `solana`; everything else is
`invalid`. -/
def classify (address : String) : Chain :=
  if (match address.toList with | '0' :: 'x' :: _ => true | _ => false) &&
      address.length == 42 then .ethereum
  else
    match base58_decoded_len address with
    | none => .invalid
    | some n => if n = 32 then .solana else .invalid

/-- Modelled from the spec: the upstream `chainId` tag that corresponds to a
classified chain (§3, §6 — candidate TradingPairs are matched against the
classified chain through their `chainId` string). -/
def chain_id_of : Chain → String
  | .ethereum => "ethereum"
  | .solana => "solana"
  | .invalid => ""

/-- Keep the running best candidate: a strictly greater volume replaces it,
a tie keeps the earlier one. -/
def best_by_vol (best : Option Pair) (x : Pair) : Option Pair :=
  match best with
  | none => some x
  | some b => if pyGt (vol_key x) (vol_key b) then some x else some b

/-- Spec-side selection rule, following the spec's words (§4.2 step 6):
"Select the candidate with the maximum `volumeUsd` (missing/unparseable
volume treated as 0). Ties broken by first-encountered order in the
response."  The fold keeps the earlier candidate unless a strictly greater
volume appears, so the first-encountered maximum wins; `vol_key` maps both a
missing and an unparseable volume to 0. -/
def spec_select (ps : List Pair) : Option Pair :=
  ps.foldl best_by_vol none

/-- `p` with its `chainId` rewritten through `f`; every other field kept. -/
def set_chain_id (f : String → String) (p : Pair) : Pair :=
  { p with chainId := f p.chainId }

/-- A response with every candidate's `chainId` rewritten through `f`. -/
def map_chain_ids (f : String → String) : Response → Response
  | .err => .err
  | .ok none => .ok none
  | .ok (some ps) => .ok (some (ps.map (set_chain_id f)))

/-! ## Helper lemmas -/

lemma pyLt_irrefl (a : PyFloat) : pyLt a a = false := by
  cases a <;> simp [pyLt]

lemma pyLt_false_trans {a b c : PyFloat} (ha : a ≠ .nan) (hb : b ≠ .nan)
    (hc : c ≠ .nan) (h1 : pyLt a b = false) (h2 : pyLt b c = false) :
    pyLt a c = false := by
  cases a <;> cases b <;> cases c <;> simp_all [pyLt, not_lt] <;> linarith

lemma pyLt_false_of_false_of_lt {a b c : PyFloat} (ha : a ≠ .nan) (hb : b ≠ .nan)
    (hc : c ≠ .nan) (h1 : pyLt a b = false) (h2 : pyLt c b = true) :
    pyLt a c = false := by
  cases a <;> cases b <;> cases c <;> simp_all [pyLt, not_lt] <;> linarith

lemma vol_raises_false {p : Pair} (h : p.volumeUsd ≠ some .err) :
    vol_raises p = false := by
  cases hq : p.volumeUsd with
  | none => simp [vol_raises, hq]
  | some pn =>
    cases pn with
    | err => exact absurd hq h
    | val v => simp [vol_raises, hq]

/-- The first element of the stable descending sort is the fold of
`best_by_vol` over the list (starting from the head of the accumulator). -/
lemma head_foldl_insert :
    ∀ (l acc : List Pair),
      (l.foldl (fun a x => insert_desc vol_key x a) acc).head? =
        l.foldl best_by_vol acc.head? := by
  intro l
  induction l with
  | nil => intro acc; rfl
  | cons x xs ih =>
    intro acc
    rw [List.foldl_cons, List.foldl_cons, ih]
    congr 1
    cases acc with
    | nil => rfl
    | cons y ys =>
      simp only [insert_desc, best_by_vol, pyGt, List.head?_cons]
      split <;> rfl

lemma select_eq_spec {ps : List Pair} (hv : ps.any vol_raises = false) :
    select_main_pair ps = spec_select ps := by
  unfold select_main_pair spec_select sorted_desc
  rw [hv]
  simpa using head_foldl_insert ps []

/-- The fold of `best_by_vol` lands on a member with no strictly larger
volume key among the list or the seed (volume keys assumed non-NaN). -/
lemma foldl_best_max :
    ∀ (l : List Pair) (b : Option Pair),
      (∀ p ∈ l, vol_key p ≠ .nan) →
      (∀ q, b = some q → vol_key q ≠ .nan) →
      ∀ m, l.foldl best_by_vol b = some m →
        (m ∈ l ∨ b = some m) ∧
        (∀ p ∈ l, pyLt (vol_key m) (vol_key p) = false) ∧
        (∀ q, b = some q → pyLt (vol_key m) (vol_key q) = false) := by
  intro l
  induction l with
  | nil =>
    intro b hl hb m hm
    rw [List.foldl_nil] at hm
    refine ⟨Or.inr hm, by simp, ?_⟩
    intro q hq
    rw [hm] at hq
    cases hq
    exact pyLt_irrefl _
  | cons x xs ih =>
    intro b hl hb m hm
    rw [List.foldl_cons] at hm
    have hx : vol_key x ≠ .nan := hl x (by simp)
    have hxs : ∀ p ∈ xs, vol_key p ≠ .nan := fun p hp => hl p (by simp [hp])
    have hb' : ∀ q, best_by_vol b x = some q → vol_key q ≠ .nan := by
      intro q hq
      cases b with
      | none =>
        simp only [best_by_vol, Option.some.injEq] at hq
        rw [← hq]; exact hx
      | some y =>
        simp only [best_by_vol] at hq
        split at hq
        · cases hq; exact hx
        · cases hq; exact hb _ rfl
    obtain ⟨hmem, hmax, hqbest⟩ := ih (best_by_vol b x) hxs hb' m hm
    have hmem' : m ∈ x :: xs ∨ b = some m := by
      rcases hmem with h | h
      · exact Or.inl (List.mem_cons_of_mem _ h)
      · cases b with
        | none =>
          simp only [best_by_vol, Option.some.injEq] at h
          rw [h]; exact Or.inl (List.mem_cons_self _ _)
        | some y =>
          simp only [best_by_vol] at h
          split at h
          · cases h; exact Or.inl (List.mem_cons_self _ _)
          · exact Or.inr h
    have hm_nan : vol_key m ≠ .nan := by
      rcases hmem' with h | h
      · exact hl m h
      · exact hb m h
    have hmaxx : pyLt (vol_key m) (vol_key x) = false := by
      cases b with
      | none => exact hqbest x rfl
      | some y =>
        by_cases hcond : pyGt (vol_key x) (vol_key y) = true
        · exact hqbest x (by simp [best_by_vol, hcond])
        · have hcond' : pyGt (vol_key x) (vol_key y) = false :=
            Bool.eq_false_iff.mpr hcond
          have hmy : pyLt (vol_key m) (vol_key y) = false :=
            hqbest y (by simp [best_by_vol, hcond'])
          exact pyLt_false_trans hm_nan (hb y rfl) hx hmy hcond'
    have hqb : ∀ q, b = some q → pyLt (vol_key m) (vol_key q) = false := by
      intro q hbq
      subst hbq
      by_cases hcond : pyGt (vol_key x) (vol_key q) = true
      · have hmx : pyLt (vol_key m) (vol_key x) = false :=
          hqbest x (by simp [best_by_vol, hcond])
        exact pyLt_false_of_false_of_lt hm_nan hx (hb q rfl) hmx hcond
      · have hcond' : pyGt (vol_key x) (vol_key q) = false :=
          Bool.eq_false_iff.mpr hcond
        exact hqbest q (by simp [best_by_vol, hcond'])
    refine ⟨hmem', ?_, hqb⟩
    intro p hp
    rcases List.mem_cons.mp hp with rfl | hp'
    · exact hmaxx
    · exact hmax p hp'

lemma observe_run_none : ∀ ps : List PyFloat, observe_run none ps = (none, 0) := by
  intro ps
  induction ps with
  | nil => rfl
  | cons p rest ih => simp [observe_run, observe_step, ih]

/-! ## Claims -/

/-- C1 (corrected): a candidate whose `volumeUsd` is present but unparseable
is not "treated as 0" — evaluating the sort key on it raises inside
`sorted`, so the whole fetch fails even though the spec-side rule would
select the candidate (its price is valid). -/
theorem unparseable_volume_fails_cex :
    spec_select [⟨some (.val (.num 1)), some .err, "ethereum", "pa", "B", "Q", none⟩] =
      some ⟨some (.val (.num 1)), some .err, "ethereum", "pa", "B", "Q", none⟩ ∧
    select_main_pair [⟨some (.val (.num 1)), some .err, "ethereum", "pa", "B", "Q", none⟩] =
      none ∧
    get_meme_coin_data
      (.ok (some [⟨some (.val (.num 1)), some .err, "ethereum", "pa", "B", "Q", none⟩])) =
      none := by
  decide

/-- C1 (amended): when every candidate's `volumeUsd` is either missing or
parses to a non-NaN value, `get_meme_coin_data`'s selection (`main_pair`)
equals the spec-side rule — the first-encountered candidate of maximum
volume, a missing volume counting as 0 — and that candidate is a member of
the list with no strictly greater volume anywhere in it. -/
theorem fetch_selects_first_max_volume (ps : List Pair)
    (hv : ∀ p ∈ ps, p.volumeUsd ≠ some .err)
    (hn : ∀ p ∈ ps, vol_key p ≠ .nan) :
    select_main_pair ps = spec_select ps ∧
    ∀ m, spec_select ps = some m →
      m ∈ ps ∧ ∀ p ∈ ps, pyLt (vol_key m) (vol_key p) = false := by
  have hany : ps.any vol_raises = false := by
    cases h : ps.any vol_raises
    · rfl
    · exfalso
      obtain ⟨p, hp, hraise⟩ := List.any_eq_true.mp h
      rw [vol_raises_false (hv p hp)] at hraise
      exact Bool.false_ne_true hraise
  refine ⟨select_eq_spec hany, ?_⟩
  intro m hm
  unfold spec_select at hm
  obtain ⟨hmem, hmax, _⟩ :=
    foldl_best_max ps none hn (fun q hq => absurd hq (by simp)) m hm
  rcases hmem with h | h
  · exact ⟨h, hmax⟩
  · exact absurd h (by simp)

/-- Witness for C1: the spec's two-candidate example (volumes 100 and 500,
same chain, valid prices) — in either list order the selection is the
500-volume candidate. -/
theorem fetch_selects_first_max_volume_witness :
    select_main_pair
        [⟨some (.val (.num 1)), some (.val (.num 100)), "ethereum", "pa", "B", "Q", none⟩,
          ⟨some (.val (.num 2)), some (.val (.num 500)), "ethereum", "pb", "C", "Q", none⟩] =
      some ⟨some (.val (.num 2)), some (.val (.num 500)), "ethereum", "pb", "C", "Q", none⟩ ∧
    select_main_pair
        [⟨some (.val (.num 2)), some (.val (.num 500)), "ethereum", "pb", "C", "Q", none⟩,
          ⟨some (.val (.num 1)), some (.val (.num 100)), "ethereum", "pa", "B", "Q", none⟩] =
      some ⟨some (.val (.num 2)), some (.val (.num 500)), "ethereum", "pb", "C", "Q", none⟩ :=
  ⟨((fetch_selects_first_max_volume _ (by decide) (by decide)).1).trans (by decide),
    ((fetch_selects_first_max_volume _ (by decide) (by decide)).1).trans (by decide)⟩

/-- C2 (confirmed): when some observed price in the sequence satisfies the
saved alert's condition, the monitoring block notifies exactly once over the
whole sequence and ends with no saved alert (so nothing more can fire until
a new alert is saved); with no saved alert it never notifies at all. -/
theorem alert_fires_exactly_once (a : Alert) (ps : List PyFloat)
    (h : ∃ p ∈ ps, condition_met a p = true) :
    (observe_run none ps).2 = 0 ∧
    (observe_run (some a) ps).2 = 1 ∧
    (observe_run (some a) ps).1 = none := by
  refine ⟨by rw [observe_run_none], ?_⟩
  induction ps with
  | nil => exact absurd h (by simp)
  | cons p rest ih =>
    cases hc : condition_met a p
    · obtain ⟨p', hp', hcond⟩ := h
      rcases List.mem_cons.mp hp' with rfl | hmem
      · rw [hc] at hcond; exact absurd hcond Bool.false_ne_true
      · have := ih ⟨p', hmem, hcond⟩
        simpa [observe_run, observe_step, hc] using this
    · simp [observe_run, observe_step, hc, observe_run_none]

/-- Witness for C2: the spec's example — threshold 1.0, direction "above",
price sequence [0.5, 0.9, 1.5, 2.0]; exactly one notification, and the
alert is gone afterwards. -/
theorem alert_fires_exactly_once_witness :
    (observe_run none
        [.num (mkRat 1 2), .num (mkRat 9 10), .num (mkRat 3 2), .num 2]).2 = 0 ∧
    (observe_run (some ⟨1, .above, "PEPE", true⟩)
        [.num (mkRat 1 2), .num (mkRat 9 10), .num (mkRat 3 2), .num 2]).2 = 1 ∧
    (observe_run (some ⟨1, .above, "PEPE", true⟩)
        [.num (mkRat 1 2), .num (mkRat 9 10), .num (mkRat 3 2), .num 2]).1 = none :=
  alert_fires_exactly_once ⟨1, .above, "PEPE", true⟩
    [.num (mkRat 1 2), .num (mkRat 9 10), .num (mkRat 3 2), .num 2] (by decide)

lemma vol_key_set_chain (f : String → String) (p : Pair) :
    vol_key (set_chain_id f p) = vol_key p := rfl

lemma vol_raises_set_chain (f : String → String) (p : Pair) :
    vol_raises (set_chain_id f p) = vol_raises p := rfl

lemma build_quote_set_chain (f : String → String) (p : Pair) :
    build_quote (set_chain_id f p) = build_quote p := rfl

lemma insert_desc_set_chain (f : String → String) (x : Pair) :
    ∀ l : List Pair,
      insert_desc vol_key (set_chain_id f x) (l.map (set_chain_id f)) =
        (insert_desc vol_key x l).map (set_chain_id f) := by
  intro l
  induction l with
  | nil => rfl
  | cons y ys ih =>
    simp only [List.map_cons, insert_desc, vol_key_set_chain]
    by_cases hc : pyLt (vol_key y) (vol_key x) = true
    · simp [hc]
    · simp [hc, ih]

lemma foldl_insert_set_chain (f : String → String) :
    ∀ (l acc : List Pair),
      (l.map (set_chain_id f)).foldl (fun a x => insert_desc vol_key x a)
          (acc.map (set_chain_id f)) =
        (l.foldl (fun a x => insert_desc vol_key x a) acc).map (set_chain_id f) := by
  intro l
  induction l with
  | nil => intro acc; rfl
  | cons x xs ih =>
    intro acc
    simp only [List.map_cons, List.foldl_cons]
    rw [insert_desc_set_chain f x acc]
    exact ih (insert_desc vol_key x acc)

lemma select_set_chain (f : String → String) (ps : List Pair) :
    select_main_pair (ps.map (set_chain_id f)) =
      (select_main_pair ps).map (set_chain_id f) := by
  unfold select_main_pair
  rw [List.any_map,
    show (vol_raises ∘ set_chain_id f) = vol_raises from funext fun p => rfl]
  cases h : ps.any vol_raises
  · simp only [Bool.false_eq_true, if_false]
    unfold sorted_desc
    have := foldl_insert_set_chain f ps []
    simp only [List.map_nil] at this
    rw [this, List.head?_map]
  · simp

/-- C3 (amended): `get_meme_coin_data` never reads `chainId` — rewriting
every candidate's `chainId` arbitrarily leaves the fetch result unchanged,
so no candidate is ever excluded for being on a different chain than the
address. -/
theorem fetch_ignores_chain_id (f : String → String) (r : Response) :
    get_meme_coin_data (map_chain_ids f r) = get_meme_coin_data r := by
  cases r with
  | err => rfl
  | ok o =>
    cases o with
    | none => rfl
    | some ps =>
      simp only [map_chain_ids, get_meme_coin_data]
      have hemp : (ps.map (set_chain_id f)).isEmpty = ps.isEmpty := by
        cases ps <;> rfl
      rw [hemp, select_set_chain]
      cases hsel : select_main_pair ps with
      | none => rfl
      | some sp => simp [build_quote_set_chain]

/-- C3 (counterexample): an address classifying as `ethereum` together with
a single candidate whose `chainId` is `"solana"` — the spec requires the
candidate to be excluded (fail with `NoMatchingPair`), but the code selects
it and returns a quote built from it. -/
theorem cross_chain_pair_selected_cex :
    classify "0xaaaaaaaaaaaaaaaaaaaaaaaaaaaaaaaaaaaaaaaa" = .ethereum ∧
    chain_id_of .ethereum = "ethereum" ∧
    (⟨some (.val (.num 1)), some (.val (.num 100)), "solana", "pa", "B", "Q", none⟩ :
        Pair).chainId = "solana" ∧
    select_main_pair
        [⟨some (.val (.num 1)), some (.val (.num 100)), "solana", "pa", "B", "Q", none⟩] =
      some ⟨some (.val (.num 1)), some (.val (.num 100)), "solana", "pa", "B", "Q", none⟩ ∧
    get_meme_coin_data
        (.ok (some [⟨some (.val (.num 1)), some (.val (.num 100)), "solana", "pa", "B", "Q", none⟩])) =
      some ⟨.num 1, "pa", "B", "Q", .num 0⟩ := by
  decide

lemma select_some_get {ps : List Pair} {sp : Pair}
    (h : select_main_pair ps = some sp) :
    get_meme_coin_data (.ok (some ps)) = build_quote sp := by
  have hne : ps.isEmpty = false := by
    cases ps with
    | nil => simp [select_main_pair, sorted_desc] at h
    | cons x xs => rfl
  simp [get_meme_coin_data, hne, h]

/-- C4 (amended): the code validates only that `priceUsd` is present and
parses — a missing or unparseable `priceUsd` on the selected candidate
fails the whole fetch — but it applies no finiteness or sign check: the
quote's `price` is exactly whatever `float(...)` produced, including NaN or
a negative value. -/
theorem fetch_price_unvalidated (ps : List Pair) (sp : Pair)
    (h : select_main_pair ps = some sp) :
    ((sp.priceUsd = none ∨ sp.priceUsd = some .err) →
      get_meme_coin_data (.ok (some ps)) = none) ∧
    (∀ v c, sp.priceUsd = some (.val v) → sp.h24 = some (.val c) →
      get_meme_coin_data (.ok (some ps)) =
        some ⟨v, sp.pairAddress, sp.baseSymbol, sp.quoteSymbol, c⟩) := by
  have hb := select_some_get h
  constructor
  · rintro (hp | hp) <;> rw [hb] <;> simp [build_quote, hp]
  · intro v c hp hc
    rw [hb]
    simp [build_quote, hp, hc]

/-- Witness for C4: a candidate whose `priceUsd` parses to -5 — the fetch
succeeds and the quote carries the negative price unchanged. -/
theorem fetch_price_unvalidated_witness :
    get_meme_coin_data
        (.ok (some [⟨some (.val (.num (-5))), some (.val (.num 100)), "ethereum", "pa", "B",
          "Q", some (.val (.num 1))⟩])) =
      some ⟨.num (-5), "pa", "B", "Q", .num 1⟩ :=
  (fetch_price_unvalidated _
      ⟨some (.val (.num (-5))), some (.val (.num 100)), "ethereum", "pa", "B", "Q",
        some (.val (.num 1))⟩ (by decide)).2
    (.num (-5)) (.num 1) rfl rfl

/-- C4 (counterexample): a candidate whose `priceUsd` parses to NaN — the
spec demands a failed fetch, but the code returns a quote with `price`
NaN. -/
theorem invalid_price_returned_cex :
    get_meme_coin_data
        (.ok (some [⟨some (.val .nan), some (.val (.num 100)), "ethereum", "pa", "B", "Q",
          none⟩])) =
      some ⟨.nan, "pa", "B", "Q", .num 0⟩ := by
  decide

/-- C5 (confirmed): when the fetch produced nothing, the whole alert block
is skipped (`if coin_data:`): the session state is unchanged and no
notification is emitted — a fetch failure is never read as a price. -/
theorem failed_fetch_skips_alert (st : Option Alert) (r : Response)
    (h : get_meme_coin_data r = none) :
    poll_tick st r = (st, false) := by
  simp [poll_tick, h]

/-- Witness for C5: a transport-error tick with a saved alert that a zero
price WOULD trigger (direction "below", threshold 1) — state unchanged, no
notification. -/
theorem failed_fetch_skips_alert_witness :
    poll_tick (some ⟨1, .below, "DOGE", true⟩) .err =
      (some ⟨1, .below, "DOGE", true⟩, false) ∧
    condition_met ⟨1, .below, "DOGE", true⟩ (.num 0) = true :=
  ⟨failed_fetch_skips_alert (some ⟨1, .below, "DOGE", true⟩) .err rfl, by decide⟩

/-- C6 (amended): no address classification happens before the request —
even for an address that classifies as `invalid` the fetch issues exactly
one upstream request, and its result is determined by the response body
alone (two fetches whose responses agree return the same thing, whatever
their addresses). -/
theorem fetch_ignores_classification (a b : String) (u v : String → Response)
    (ha : classify a = .invalid)
    (hresp : u (token_url a) = v (token_url b)) :
    (fetch_with_requests a u).1 = (fetch_with_requests b v).1 ∧
    (fetch_with_requests a u).2.length = 1 := by
  constructor
  · simp [fetch_with_requests, hresp]
  · rfl

/-- Witness for C6: the invalid address `"0xZZ"` and a valid ethereum-style
address, both answered with the same single-candidate body, give identical
results; the invalid one still issued its one request. -/
theorem fetch_ignores_classification_witness :
    (fetch_with_requests "0xZZ"
        (fun _ => .ok (some [⟨some (.val (.num 1)), some (.val (.num 100)), "ethereum",
          "pa", "B", "Q", none⟩]))).1 =
      (fetch_with_requests "0xaaaaaaaaaaaaaaaaaaaaaaaaaaaaaaaaaaaaaaaa"
        (fun _ => .ok (some [⟨some (.val (.num 1)), some (.val (.num 100)), "ethereum",
          "pa", "B", "Q", none⟩]))).1 ∧
    (fetch_with_requests "0xZZ"
        (fun _ => .ok (some [⟨some (.val (.num 1)), some (.val (.num 100)), "ethereum",
          "pa", "B", "Q", none⟩]))).2.length = 1 :=
  fetch_ignores_classification _ _ _ _ (by decide) rfl

/-- C6 (counterexample): for the invalid address `"0xZZ"` the code does not
fail with `InvalidAddress` before the network: it issues its upstream
request anyway, and with a well-formed response the fetch even succeeds. -/
theorem invalid_address_still_requests_cex :
    classify "0xZZ" = .invalid ∧
    (fetch_with_requests "0xZZ"
        (fun _ => .ok (some [⟨some (.val (.num 1)), some (.val (.num 100)), "ethereum",
          "pa", "B", "Q", none⟩]))).2 = [token_url "0xZZ"] ∧
    (fetch_with_requests "0xZZ"
        (fun _ => .ok (some [⟨some (.val (.num 1)), some (.val (.num 100)), "ethereum",
          "pa", "B", "Q", none⟩]))).1 =
      some ⟨.num 1, "pa", "B", "Q", .num 0⟩ :=
  ⟨by decide, rfl, rfl⟩

/-- C7 (counterexample): one script run with the Verify button clicked
performs two quote lookups back to back — within any TTL window — and
issues two upstream requests, not one. -/
theorem double_lookup_two_requests_cex :
    quote_requests "0xabc" true = [token_url "0xabc", token_url "0xabc"] ∧
    (quote_requests "0xabc" true).length = 2 := by
  constructor
  · rfl
  · rfl

/-- C7 (amended): there is no cache: every quote lookup issues its own
upstream request, so a session of `n` script runs issues `n` requests plus
one more per Verify click — never fewer than one request per run, no matter
how close together the runs are. -/
theorem every_lookup_issues_request (addr : String) (runs : List Bool)
    (h : addr ≠ "") :
    (session_requests addr runs).length = runs.length + runs.count true ∧
    runs.length ≤ (session_requests addr runs).length := by
  have key : ∀ v, (quote_requests addr v).length = if v then 2 else 1 := by
    intro v
    cases v <;> simp [quote_requests, h]
  have hlen : (session_requests addr runs).length = runs.length + runs.count true := by
    induction runs with
    | nil => rfl
    | cons v rs ih =>
      simp only [session_requests, List.map_cons, List.flatten_cons,
        List.length_append, List.length_cons, List.count_cons] at *
      rw [key v, ih]
      cases v <;> simp <;> omega
  exact ⟨hlen, by rw [hlen]; exact Nat.le_add_right _ _⟩

/-- Witness for C7: two runs (one with Verify clicked) issue three
requests. -/
theorem every_lookup_issues_request_witness :
    (session_requests "0xabc" [true, false]).length =
      [true, false].length + [true, false].count true ∧
    [true, false].length ≤ (session_requests "0xabc" [true, false]).length :=
  every_lookup_issues_request "0xabc" [true, false] (by decide)

/-- C8 (amended): `get_historical_data` returns at most 200 points, and they
are the FIRST (at most) 200 elements of the upstream list, in upstream
order — a prefix, neither re-sorted nor selected from the most recent end;
any failure or missing history yields the empty list (a non-fatal degraded
result, the function never raises). -/
theorem history_first_200_in_upstream_order (r : HistResponse) :
    (get_historical_data r).length ≤ 200 ∧
    (∀ l, r = .ok (some l) →
      get_historical_data r <+: l ∧ get_historical_data r = l.take 200) ∧
    get_historical_data .err = [] ∧ get_historical_data (.ok none) = [] := by
  refine ⟨?_, ?_, rfl, rfl⟩
  · cases r with
    | err => simp [get_historical_data]
    | ok o =>
      cases o with
      | none => simp [get_historical_data]
      | some l => simp [get_historical_data, List.length_take]
  · intro l hl
    subst hl
    exact ⟨List.take_prefix _ _, rfl⟩

set_option maxRecDepth 4000 in
/-- C8 (counterexample): an upstream history of 201 points in ascending
time order — the code keeps the first 200, i.e. the OLDEST 200: the most
recent point (timestamp 200) is dropped while the oldest (timestamp 0) is
kept, so the result is not "the most recent 200 points". -/
theorem history_keeps_oldest_cex :
    get_historical_data (.ok (some ((List.range 201).map (fun i => ⟨i, "1"⟩)))) =
      (List.range 200).map (fun i => ⟨i, "1"⟩) ∧
    (⟨0, "1"⟩ : HistPoint) ∈
      get_historical_data (.ok (some ((List.range 201).map (fun i => ⟨i, "1"⟩)))) ∧
    (⟨200, "1"⟩ : HistPoint) ∉
      get_historical_data (.ok (some ((List.range 201).map (fun i => ⟨i, "1"⟩)))) := by
  refine ⟨by decide, by decide, by decide⟩

/-- C9 (counterexample): the saved alert holds a single threshold and a
single direction, so no configuration behaves like the spec's two-band
alert (low=0.5, high=1.0): none fires at 0.4 and at 1.5 while staying
silent at 0.6. -/
theorem two_band_alert_impossible_cex :
    ¬ ∃ a : Alert,
      condition_met a (.num ((2 : ℚ)/5)) = true ∧
      condition_met a (.num ((3 : ℚ)/2)) = true ∧
      condition_met a (.num ((3 : ℚ)/5)) = false := by
  rintro ⟨⟨t, c, tok, act⟩, h04, h15, h06⟩
  cases c
  · simp only [condition_met, pyGt, pyLt, decide_eq_true_eq,
      decide_eq_false_iff_not] at h04 h15 h06
    exact h06 (by linarith)
  · simp only [condition_met, pyGt, pyLt, decide_eq_true_eq,
      decide_eq_false_iff_not] at h04 h15 h06
    exact h06 (by linarith)

/-- C9 (amended): a saved alert has exactly one threshold and one
direction; its firing set is monotone upward (direction "above") or
monotone downward (direction "below") in the observed price — two
independent bands are impossible, and the unset direction never fires. -/
theorem alert_single_direction (a : Alert) :
    (∀ p q : ℚ, p ≤ q → condition_met a (.num p) = true →
      condition_met a (.num q) = true) ∨
    (∀ p q : ℚ, p ≤ q → condition_met a (.num q) = true →
      condition_met a (.num p) = true) := by
  rcases a with ⟨t, c, tok, act⟩
  cases c
  · left
    intro p q hpq hp
    simp only [condition_met, pyGt, pyLt, decide_eq_true_eq] at hp ⊢
    linarith
  · right
    intro p q hpq hq
    simp only [condition_met, pyGt, pyLt, decide_eq_true_eq] at hq ⊢
    linarith

/-- C10 (confirmed): on the selected candidate a missing `priceChange.h24`
is defaulted to `0` and the fetch still succeeds (with `change_24h = 0`),
while a missing or unparseable `priceUsd` fails the whole fetch. -/
theorem missing_h24_defaults_zero (ps : List Pair) (sp : Pair)
    (h : select_main_pair ps = some sp) (hh : sp.h24 = none) :
    (∀ v, sp.priceUsd = some (.val v) →
      get_meme_coin_data (.ok (some ps)) =
        some ⟨v, sp.pairAddress, sp.baseSymbol, sp.quoteSymbol, .num 0⟩) ∧
    ((sp.priceUsd = none ∨ sp.priceUsd = some .err) →
      get_meme_coin_data (.ok (some ps)) = none) := by
  have hb := select_some_get h
  constructor
  · intro v hp
    rw [hb]
    simp [build_quote, hp, hh]
  · rintro (hp | hp) <;> rw [hb] <;> simp [build_quote, hp]

/-- Witness for C10: a selected candidate with `priceUsd` parsing to 2 and
no `priceChange.h24` — the fetch succeeds with `change_24h = 0`. -/
theorem missing_h24_defaults_zero_witness :
    get_meme_coin_data
        (.ok (some [⟨some (.val (.num 2)), some (.val (.num 7)), "ethereum", "px", "B", "Q",
          none⟩])) =
      some ⟨.num 2, "px", "B", "Q", .num 0⟩ :=
  (missing_h24_defaults_zero _
      ⟨some (.val (.num 2)), some (.val (.num 7)), "ethereum", "px", "B", "Q", none⟩
      (by decide) rfl).1 (.num 2) rfl

end MemeSignal
